import Mathlib

/-!
# Verification of the job-scraper field-extraction logic

Shallow embedding of the pure text-processing core of the repository's
scraper scripts (`scrape_jobs_github.py`, `scrape_microsoft_jobs.py`,
`scrape_tech_jobs.py`): the experience/skills extractor
`extract_experience_and_skills`, the description-summary truncation in
`get_job_detail`, and the tabular writer `save_to_excel`.

Text is modelled as `List Char`.  Python's `str.lower` is modelled on the
ASCII range (all literals compared by this program are ASCII).  The five
regular expressions used for experience inference are embedded as explicit
executable matchers; since the regexes are applied to the lower-cased text
and contain only lower-case literals, the `re.IGNORECASE` flag has no
effect and is not modelled.
-/

/-- ASCII case folding: model of Python's `str.lower` restricted to the
ASCII letters (the only characters this program's literals compare). -/
def asciiLower (c : Char) : Char :=
  if c = 'A' then 'a' else if c = 'B' then 'b' else if c = 'C' then 'c'
  else if c = 'D' then 'd' else if c = 'E' then 'e' else if c = 'F' then 'f'
  else if c = 'G' then 'g' else if c = 'H' then 'h' else if c = 'I' then 'i'
  else if c = 'J' then 'j' else if c = 'K' then 'k' else if c = 'L' then 'l'
  else if c = 'M' then 'm' else if c = 'N' then 'n' else if c = 'O' then 'o'
  else if c = 'P' then 'p' else if c = 'Q' then 'q' else if c = 'R' then 'r'
  else if c = 'S' then 's' else if c = 'T' then 't' else if c = 'U' then 'u'
  else if c = 'V' then 'v' else if c = 'W' then 'w' else if c = 'X' then 'x'
  else if c = 'Y' then 'y' else if c = 'Z' then 'z' else c

/-- `text.lower()` on a character list. -/
def lowerList (cs : List Char) : List Char := cs.map asciiLower

/-- Python regex `\d` on ASCII input. -/
def isDigitChar (c : Char) : Bool := '0' ≤ c && c ≤ '9'

/-- Python regex `\s`: `[ \t\n\r\f\v]` on ASCII input. -/
def isSpaceChar (c : Char) : Bool :=
  c = ' ' || c = '\t' || c = '\n' || c = '\r' || c = '\x0b' || c = '\x0c'

/-- Match a literal character sequence at the head of the input, returning
the rest (regex literal). -/
def litAt : List Char → List Char → Option (List Char)
  | [], cs => some cs
  | _ :: _, [] => none
  | l :: ls, c :: cs => if c = l then litAt ls cs else none

/-- Regex `(\d+\+?\s*years?\s*(?:of\s*)?experience)` (pattern 1 of the
experience cascade), matched at the start of the input; on success returns
the matched text and the rest.

The greedy quantifiers are implemented deterministically (`takeWhile` /
take-if-present).  This is extensionally faithful to Python's backtracking
semantics for this pattern: no element that follows a quantifier can match
the quantifier's class (`+`, `y` are not digits; `y`, `e` are not
whitespace), and at each optional (`\+?`, `s?`, `(?:of\s*)?`) the
skip-branch demands a character (`y`, resp. `e`) that contradicts the very
character whose presence made the take-branch available, so backtracking
into a shorter choice can never turn a failure into a success. -/
def matchP1At (cs : List Char) : Option (List Char × List Char) :=
  let ds := cs.takeWhile isDigitChar
  let r1 := cs.dropWhile isDigitChar
  if ds.isEmpty then none else
  let pl := match r1 with | '+' :: _ => ['+'] | _ => ([] : List Char)
  let r2 := match r1 with | '+' :: t => t | _ => r1
  let sp1 := r2.takeWhile isSpaceChar
  let r3 := r2.dropWhile isSpaceChar
  match litAt "year".data r3 with
  | none => none
  | some r4 =>
    let so := match r4 with | 's' :: _ => ['s'] | _ => ([] : List Char)
    let r5 := match r4 with | 's' :: t => t | _ => r4
    let sp2 := r5.takeWhile isSpaceChar
    let r6 := r5.dropWhile isSpaceChar
    let ofPart := match litAt "of".data r6 with
      | some t => "of".data ++ t.takeWhile isSpaceChar
      | none => []
    let r7 := match litAt "of".data r6 with
      | some t => t.dropWhile isSpaceChar
      | none => r6
    match litAt "experience".data r7 with
    | none => none
    | some r8 =>
      some (ds ++ pl ++ sp1 ++ "year".data ++ so ++ sp2 ++ ofPart
              ++ "experience".data, r8)

example : matchP1At "5+ years of experience!".data =
    some ("5+ years of experience".data, ['!']) := by decide

example : matchP1At "3 yearsexperience".data =
    some ("3 yearsexperience".data, []) := by decide

example : matchP1At "x5 years of experience".data = none := by decide

/-- Regex `(minimum\s*\d+\s*years?)` (pattern 2), matched at the start of
the input.  Deterministic greedy matching is faithful here for the same
reason as in `matchP1At`: digits are not whitespace, `y` is neither a digit
nor whitespace, and the final `s?` is at the end of the pattern, where the
greedy choice is final. -/
def matchP2At (cs : List Char) : Option (List Char × List Char) :=
  match litAt "minimum".data cs with
  | none => none
  | some r1 =>
    let sp1 := r1.takeWhile isSpaceChar
    let r2 := r1.dropWhile isSpaceChar
    let ds := r2.takeWhile isDigitChar
    let r3 := r2.dropWhile isDigitChar
    if ds.isEmpty then none else
    let sp2 := r3.takeWhile isSpaceChar
    let r4 := r3.dropWhile isSpaceChar
    match litAt "year".data r4 with
    | none => none
    | some r5 =>
      let so := match r5 with | 's' :: _ => ['s'] | _ => ([] : List Char)
      let r6 := match r5 with | 's' :: t => t | _ => r5
      some ("minimum".data ++ sp1 ++ ds ++ sp2 ++ "year".data ++ so, r6)

/-- Regex `(\d+\s*to\s*\d+\s*years?)` (pattern 3), matched at the start of
the input.  Deterministic greedy matching is faithful: `t`, `y` are neither
digits nor whitespace and digits are not whitespace, so no shorter
quantifier choice can succeed where the greedy one fails. -/
def matchP3At (cs : List Char) : Option (List Char × List Char) :=
  let ds1 := cs.takeWhile isDigitChar
  let r1 := cs.dropWhile isDigitChar
  if ds1.isEmpty then none else
  let sp1 := r1.takeWhile isSpaceChar
  let r2 := r1.dropWhile isSpaceChar
  match litAt "to".data r2 with
  | none => none
  | some r3 =>
    let sp2 := r3.takeWhile isSpaceChar
    let r4 := r3.dropWhile isSpaceChar
    let ds2 := r4.takeWhile isDigitChar
    let r5 := r4.dropWhile isDigitChar
    if ds2.isEmpty then none else
    let sp3 := r5.takeWhile isSpaceChar
    let r6 := r5.dropWhile isSpaceChar
    match litAt "year".data r6 with
    | none => none
    | some r7 =>
      let so := match r7 with | 's' :: _ => ['s'] | _ => ([] : List Char)
      let r8 := match r7 with | 's' :: t => t | _ => r7
      some (ds1 ++ sp1 ++ "to".data ++ sp2 ++ ds2 ++ sp3 ++ "year".data
              ++ so, r8)

/-- The `entry\s*level` alternative shared by both variants of pattern 4.
Deterministic `\s*` is faithful: `l` is not whitespace. -/
def matchEntryLevelAt (cs : List Char) : Option (List Char × List Char) :=
  match litAt "entry".data cs with
  | none => none
  | some r1 =>
    let sp := r1.takeWhile isSpaceChar
    let r2 := r1.dropWhile isSpaceChar
    match litAt "level".data r2 with
    | none => none
    | some r3 => some ("entry".data ++ sp ++ "level".data, r3)

/-- Match a plain literal word as one alternative, returning it as the
matched text. -/
def litWordAt (w : List Char) (cs : List Char) : Option (List Char × List Char) :=
  match litAt w cs with
  | none => none
  | some r => some (w, r)

/-- Regex `(entry\s*level|junior|senior|principal|lead)` — pattern 4 of
`scrape_jobs_github.py` (line 58).  Alternatives are tried left to right,
as Python's backtracking does. -/
def matchP4GithubAt (cs : List Char) : Option (List Char × List Char) :=
  match matchEntryLevelAt cs with
  | some res => some res
  | none =>
  match litWordAt "junior".data cs with
  | some res => some res
  | none =>
  match litWordAt "senior".data cs with
  | some res => some res
  | none =>
  match litWordAt "principal".data cs with
  | some res => some res
  | none => litWordAt "lead".data cs

/-- Regex `(entry\s*level|junior|senior|principal)` — pattern 4 of
`scrape_microsoft_jobs.py` (line 59).  Unlike the GitHub variant it has no
`lead` alternative. -/
def matchP4MicrosoftAt (cs : List Char) : Option (List Char × List Char) :=
  match matchEntryLevelAt cs with
  | some res => some res
  | none =>
  match litWordAt "junior".data cs with
  | some res => some res
  | none =>
  match litWordAt "senior".data cs with
  | some res => some res
  | none => litWordAt "principal".data cs

/-- Regex `(bachelor|master|phd|degree)` — pattern 5 of both scripts. -/
def matchP5At (cs : List Char) : Option (List Char × List Char) :=
  match litWordAt "bachelor".data cs with
  | some res => some res
  | none =>
  match litWordAt "master".data cs with
  | some res => some res
  | none =>
  match litWordAt "phd".data cs with
  | some res => some res
  | none => litWordAt "degree".data cs

/-- Leftmost match of a pattern: the pattern is tried at every position
from the left and the first success is returned.  This is
`re.findall(pattern, text)[0]` for the patterns above, each of which wraps
the whole regex in one capture group, so `findall` returns whole matches,
and `matches[0]` is the leftmost one. -/
def firstMatch (m : List Char → Option (List Char × List Char)) :
    List Char → Option (List Char)
  | [] => match m [] with
          | some (x, _) => some x
          | none => none
  | c :: cs => match m (c :: cs) with
               | some (x, _) => some x
               | none => firstMatch m cs

/-- The `for pattern in experience_patterns: ... break` loop: the first
pattern in the priority list that has any match contributes its leftmost
match; if none matches, the experience stays `""`. -/
def runPatterns : List (List Char → Option (List Char × List Char)) →
    List Char → List Char
  | [], _ => []
  | p :: ps, cs => match firstMatch p cs with
                   | some m => m
                   | none => runPatterns ps cs

/-- `experience_patterns` of `scrape_jobs_github.py` (lines 54-60). -/
def experience_patterns_github :
    List (List Char → Option (List Char × List Char)) :=
  [matchP1At, matchP2At, matchP3At, matchP4GithubAt, matchP5At]

/-- `experience_patterns` of `scrape_microsoft_jobs.py` (lines 55-61). -/
def experience_patterns_microsoft :
    List (List Char → Option (List Char × List Char)) :=
  [matchP1At, matchP2At, matchP3At, matchP4MicrosoftAt, matchP5At]

example : runPatterns experience_patterns_github "a senior lead role".data
    = "senior".data := by decide

example : runPatterns experience_patterns_microsoft "lead".data = [] := by
  decide

example : runPatterns experience_patterns_github
    "minimum 3  years, 2 to 4 years".data = "minimum 3  years".data := by
  decide

/-- Does `needle` occur at the start of the stream (regex-free model of
Python's `str.startswith`, used to build the substring test)? -/
def startsWithList (needle hay : List Char) : Bool :=
  match needle, hay with
  | [], _ => true
  | _ :: _, [] => false
  | n :: ns, c :: cs => n = c && startsWithList ns cs

/-- Python's substring operator `needle in hay`. -/
def containsSub (needle : List Char) : List Char → Bool
  | [] => needle.isEmpty
  | c :: cs => startsWithList needle (c :: cs) || containsSub needle cs

/-- `skill_keywords` of `scrape_jobs_github.py` (lines 69-75). -/
def skill_keywords_github : List (List Char) :=
  ["python".data, "java".data, "javascript".data, "typescript".data,
   "go".data, "rust".data, "c#".data, "c++".data,
   "sql".data, "html".data, "css".data, "react".data, "vue".data,
   "angular".data, "node.js".data, "docker".data,
   "kubernetes".data, "aws".data, "azure".data, "gcp".data, "git".data,
   "github".data, "linux".data, "bash".data,
   "machine learning".data, "ai".data, "data science".data,
   "analytics".data, "cloud".data,
   "agile".data, "scrum".data, "devops".data, "ci/cd".data,
   "terraform".data, "ansible".data]

/-- `skill_keywords` of `scrape_microsoft_jobs.py` (lines 70-75). -/
def skill_keywords_microsoft : List (List Char) :=
  ["python".data, "java".data, "javascript".data, "c#".data, "c++".data,
   "sql".data, "azure".data, "aws".data,
   "react".data, "angular".data, "node.js".data, "kubernetes".data,
   "docker".data, "git".data,
   "machine learning".data, "ai".data, "data science".data,
   "analytics".data, "cloud".data,
   "agile".data, "scrum".data, "devops".data, "ci/cd".data,
   "tensorflow".data, "pytorch".data]

/-- The `for skill in skill_keywords: if skill.lower() in desc_lower:
found_skills.append(skill)` loop. -/
def foundSkills (keywords : List (List Char)) (descLower : List Char) :
    List (List Char) :=
  keywords.foldl
    (fun acc skill =>
      if containsSub (lowerList skill) descLower then acc ++ [skill]
      else acc)
    []

/-- `', '.join(...)` on a list of strings. -/
def joinComma (l : List (List Char)) : List Char :=
  List.intercalate ", ".data l

/-- Body of `extract_experience_and_skills` past the truthiness guard
(lines 51-82 of both scripts, parameterised by the script's pattern list
and keyword vocabulary): lower-case the text, run the experience pattern
cascade, collect the skill keywords, keep the first 10 and join them. -/
def extractBody (patterns : List (List Char → Option (List Char × List Char)))
    (keywords : List (List Char)) (jd : List Char) : List Char × List Char :=
  let descLower := lowerList jd
  let experience := runPatterns patterns descLower
  let found := foundSkills keywords descLower
  (experience, joinComma (found.take 10))

/-- `extract_experience_and_skills` of `scrape_jobs_github.py`
(lines 35-82).  The input is `Option (List Char)` because the Python
parameter may be `None`; `none` and `some ""` both fail the
`if not job_description` truthiness check and yield `("", "")`. -/
def extract_experience_and_skills_github (job_description : Option (List Char)) :
    List Char × List Char :=
  match job_description with
  | none => ([], [])
  | some [] => ([], [])
  | some jd => extractBody experience_patterns_github skill_keywords_github jd

/-- `extract_experience_and_skills` of `scrape_microsoft_jobs.py`
(lines 35-82): same structure, but with the Microsoft pattern list and
keyword vocabulary. -/
def extract_experience_and_skills_microsoft (job_description : Option (List Char)) :
    List Char × List Char :=
  match job_description with
  | none => ([], [])
  | some [] => ([], [])
  | some jd => extractBody experience_patterns_microsoft skill_keywords_microsoft jd

example : extract_experience_and_skills_github (some "We use PYTHON and Docker; senior role.".data)
    = ("senior".data, "python, docker".data) := by decide

example : extract_experience_and_skills_github (some "nothing here".data)
    = ([], []) := by decide

/-- The summary derivation of `get_job_detail` (both scripts):
`description[:200] + "..." if len(description) > 200 else description`. -/
def summarize (description : List Char) : List Char :=
  if description.length > 200 then description.take 200 ++ "...".data
  else description

/-- The record returned by `get_job_detail`. -/
structure JobDetail where
  description : List Char
  experience : List Char
  skills : List Char
  summary : List Char
  salary : List Char
deriving DecidableEq

/-- The all-empty record returned on the exception path of
`get_job_detail`. -/
def emptyJobDetail : JobDetail := ⟨[], [], [], [], []⟩

/-- `get_job_detail` of `scrape_jobs_github.py` (lines 85-139).  The
effectful fetch/parse prefix is modelled by the argument: `none` is any
failure inside the `try` block (the `except` branch returns the all-empty
record); `some description` is the text produced by the selector cascade
(`""` when no selector matched, also a `some` value since that raises
nothing).  The pure tail of the `try` block is embedded directly. -/
def get_job_detail_github (fetched : Option (List Char)) : JobDetail :=
  match fetched with
  | none => emptyJobDetail
  | some description =>
    let es := extract_experience_and_skills_github (some description)
    { description := description
      experience := es.1
      skills := es.2
      summary := summarize description
      salary := [] }

/-- `get_job_detail` of `scrape_microsoft_jobs.py` (lines 85-138), same
shape with the Microsoft extractor. -/
def get_job_detail_microsoft (fetched : Option (List Char)) : JobDetail :=
  match fetched with
  | none => emptyJobDetail
  | some description =>
    let es := extract_experience_and_skills_microsoft (some description)
    { description := description
      experience := es.1
      skills := es.2
      summary := summarize description
      salary := [] }

/-- `required_columns` of `save_to_excel` (identical in all three scraper
scripts) and of `verify_excel.py`. -/
def required_columns : List String :=
  ["JobTitle", "Location", "ExperienceRequired",
   "SkillsRequired", "Salary", "JobURL", "JobDescriptionSummary"]

/-- A job record as passed to `save_to_excel`: a Python dict from column
name to string value, modelled as an association list. -/
abbrev JobRow : Type := List (String × String)

/-- The row that `save_to_excel` writes for one record: one cell per
required column, in the fixed column order; a field the record does not
carry becomes the empty string.  This models the pandas steps
`df[col] = ""` for absent columns, `df = df[required_columns]`
(column reordering, dropping extra keys) and `df.fillna("")`. -/
def rowOf (j : JobRow) : List String :=
  required_columns.map (fun c => (List.lookup c j).getD "")

/-- `save_to_excel` of the scraper scripts (e.g. `scrape_tech_jobs.py`
lines 226-255).  The written spreadsheet is modelled as its header row and
data rows; `none` models the early `if not jobs: return`, which writes no
file.  The pandas `DataFrame`/`to_excel` machinery is external library
code, modelled per the spec's Tabular Writer contract (§4.2): persist the
records under the fixed column order, filling missing fields with `""`. -/
def save_to_excel (jobs : List JobRow) :
    Option (List String × List (List String)) :=
  if jobs.isEmpty then none
  else some (required_columns, jobs.map rowOf)

example : save_to_excel [] = none := by decide

example :
    save_to_excel [[("JobTitle", "Dev"), ("Extra", "x")]] =
      some (required_columns, [["Dev", "", "", "", "", "", ""]]) := by
  decide

/-! ## Helper lemmas -/

/-- The append-accumulating fold of the skill loop is a `filter`. -/
theorem foldl_append_filter {α : Type} (p : α → Bool) :
    ∀ (l acc : List α),
      l.foldl (fun acc s => if p s then acc ++ [s] else acc) acc
        = acc ++ l.filter p
  | [], acc => by simp
  | a :: l, acc => by
    simp only [List.foldl_cons, List.filter_cons]
    cases h : p a <;>
      simp [h, foldl_append_filter p l, List.append_assoc]

/-- `foundSkills` keeps exactly the keywords whose lower-casing occurs in
the lowered description, in vocabulary order. -/
theorem foundSkills_eq_filter (keywords : List (List Char)) (d : List Char) :
    foundSkills keywords d
      = keywords.filter (fun s => containsSub (lowerList s) d) := by
  simp [foundSkills, foldl_append_filter]

theorem startsWithList_iff (needle : List Char) :
    ∀ hay : List Char,
      startsWithList needle hay = true ↔ ∃ t, hay = needle ++ t := by
  induction needle with
  | nil => intro hay; simp [startsWithList]
  | cons n ns ih =>
    intro hay
    cases hay with
    | nil => simp [startsWithList]
    | cons c cs =>
      simp only [startsWithList, Bool.and_eq_true, decide_eq_true_eq, ih cs,
        List.cons_append, List.cons.injEq]
      constructor
      · rintro ⟨rfl, t, rfl⟩; exact ⟨t, rfl, rfl⟩
      · rintro ⟨t, rfl, rfl⟩; exact ⟨rfl, t, rfl⟩

theorem containsSub_iff (needle : List Char) :
    ∀ hay : List Char,
      containsSub needle hay = true ↔ ∃ a b, hay = a ++ needle ++ b := by
  intro hay
  induction hay with
  | nil =>
    simp only [containsSub, List.isEmpty_iff]
    constructor
    · rintro rfl; exact ⟨[], [], rfl⟩
    · rintro ⟨a, b, h⟩
      rcases List.append_eq_nil.mp h.symm with ⟨h1, h2⟩
      exact (List.append_eq_nil.mp h1).2
  | cons c cs ih =>
    simp only [containsSub, Bool.or_eq_true, startsWithList_iff, ih]
    constructor
    · rintro (⟨t, ht⟩ | ⟨a, b, hab⟩)
      · exact ⟨[], t, by simp [ht]⟩
      · exact ⟨c :: a, b, by simp [hab]⟩
    · rintro ⟨a, b, hab⟩
      cases a with
      | nil => exact Or.inl ⟨b, by simpa using hab⟩
      | cons a0 as =>
        right
        obtain ⟨rfl, h⟩ := List.cons.injEq .. ▸ hab
        exact ⟨as, b, by simpa using h⟩

/-- A pattern that matches somewhere in the text gives `firstMatch` a
result (possibly an earlier one). -/
theorem firstMatch_isSome_append
    (m : List Char → Option (List Char × List Char)) :
    ∀ (pre s : List Char) (x r : List Char), m s = some (x, r) →
      ∃ y, firstMatch m (pre ++ s) = some y
  | [], s, x, r, h => by
    cases s with
    | nil => exact ⟨x, by simp [firstMatch, h]⟩
    | cons c cs => exact ⟨x, by simp [firstMatch, h]⟩
  | p :: pre, s, x, r, h => by
    rw [List.cons_append]
    cases hm : m (p :: (pre ++ s)) with
    | some res => exact ⟨res.1, by simp [firstMatch, hm]⟩
    | none =>
      obtain ⟨y, hy⟩ := firstMatch_isSome_append m pre s x r h
      exact ⟨y, by simp [firstMatch, hm, hy]⟩

/-- `asciiLower` maps every character either to itself or to a lower-case
letter. -/
theorem asciiLower_fix_or (c : Char) :
    asciiLower c = c ∨ asciiLower c ∈ "abcdefghijklmnopqrstuvwxyz".data := by
  by_cases h1 : c = 'A'
  · subst h1; right; decide
  by_cases h2 : c = 'B'
  · subst h2; right; decide
  by_cases h3 : c = 'C'
  · subst h3; right; decide
  by_cases h4 : c = 'D'
  · subst h4; right; decide
  by_cases h5 : c = 'E'
  · subst h5; right; decide
  by_cases h6 : c = 'F'
  · subst h6; right; decide
  by_cases h7 : c = 'G'
  · subst h7; right; decide
  by_cases h8 : c = 'H'
  · subst h8; right; decide
  by_cases h9 : c = 'I'
  · subst h9; right; decide
  by_cases h10 : c = 'J'
  · subst h10; right; decide
  by_cases h11 : c = 'K'
  · subst h11; right; decide
  by_cases h12 : c = 'L'
  · subst h12; right; decide
  by_cases h13 : c = 'M'
  · subst h13; right; decide
  by_cases h14 : c = 'N'
  · subst h14; right; decide
  by_cases h15 : c = 'O'
  · subst h15; right; decide
  by_cases h16 : c = 'P'
  · subst h16; right; decide
  by_cases h17 : c = 'Q'
  · subst h17; right; decide
  by_cases h18 : c = 'R'
  · subst h18; right; decide
  by_cases h19 : c = 'S'
  · subst h19; right; decide
  by_cases h20 : c = 'T'
  · subst h20; right; decide
  by_cases h21 : c = 'U'
  · subst h21; right; decide
  by_cases h22 : c = 'V'
  · subst h22; right; decide
  by_cases h23 : c = 'W'
  · subst h23; right; decide
  by_cases h24 : c = 'X'
  · subst h24; right; decide
  by_cases h25 : c = 'Y'
  · subst h25; right; decide
  by_cases h26 : c = 'Z'
  · subst h26; right; decide
  left
  unfold asciiLower
  rw [if_neg h1, if_neg h2, if_neg h3, if_neg h4, if_neg h5, if_neg h6, if_neg h7, if_neg h8, if_neg h9, if_neg h10, if_neg h11, if_neg h12, if_neg h13, if_neg h14, if_neg h15, if_neg h16, if_neg h17, if_neg h18, if_neg h19, if_neg h20, if_neg h21, if_neg h22, if_neg h23, if_neg h24, if_neg h25, if_neg h26]

/-- Lower-case letters are fixed points of `asciiLower`. -/
theorem asciiLower_lower_fix :
    ∀ c ∈ "abcdefghijklmnopqrstuvwxyz".data, asciiLower c = c := by decide

theorem asciiLower_idem (c : Char) :
    asciiLower (asciiLower c) = asciiLower c := by
  rcases asciiLower_fix_or c with h | h
  · rw [h]; exact h
  · exact asciiLower_lower_fix _ h

theorem lowerList_idem (t : List Char) :
    lowerList (lowerList t) = lowerList t := by
  induction t with
  | nil => rfl
  | cons c cs ih =>
    simp only [lowerList, List.map_cons] at *
    rw [asciiLower_idem]
    exact List.cons_inj_right _ |>.mpr ih

/-- Pattern 1 matches the occurrence `"5+ years of experience"` exactly,
whatever follows it: every greedy step of the matcher is resolved inside
the occurrence itself. -/
theorem matchP1At_occ (post : List Char) :
    matchP1At ("5+ years of experience".data ++ post)
      = some ("5+ years of experience".data, post) := rfl

/-- A pattern-1 match is never the empty string (it starts with at least
one digit). -/
theorem matchP1At_ne_nil {cs x r : List Char}
    (h : matchP1At cs = some (x, r)) : x ≠ [] := by
  simp only [matchP1At] at h
  split at h
  · exact absurd h (by simp)
  next hne =>
    split at h
    · exact absurd h (by simp)
    next r4 hy =>
      split at h
      · exact absurd h (by simp)
      next r8 he =>
        simp only [Option.some.injEq, Prod.mk.injEq] at h
        obtain ⟨hx, -⟩ := h
        intro hnil
        rw [← hx] at hnil
        simp only [List.append_eq_nil] at hnil
        rw [List.isEmpty_iff] at hne
        exact hne (by tauto)

/-- Every `firstMatch` result is a match of the pattern at some
position. -/
theorem firstMatch_eq_some
    (m : List Char → Option (List Char × List Char)) :
    ∀ {cs y : List Char}, firstMatch m cs = some y →
      ∃ s r, m s = some (y, r)
  | [], y, h => by
    simp only [firstMatch] at h
    cases hm : m [] with
    | none => rw [hm] at h; exact absurd h (by simp)
    | some res =>
      obtain ⟨x, r⟩ := res
      rw [hm] at h
      simp only [Option.some.injEq] at h
      exact ⟨[], r, by rw [hm, h]⟩
  | c :: cs, y, h => by
    simp only [firstMatch] at h
    cases hm : m (c :: cs) with
    | none => rw [hm] at h; exact firstMatch_eq_some m h
    | some res =>
      obtain ⟨x, r⟩ := res
      rw [hm] at h
      simp only [Option.some.injEq] at h
      exact ⟨c :: cs, r, by rw [hm, h]⟩

theorem lowerList_append (a b : List Char) :
    lowerList (a ++ b) = lowerList a ++ lowerList b := by
  simp [lowerList]

/-- The extractor on a non-empty text is its body. -/
theorem extract_github_cons (c : Char) (cs : List Char) :
    extract_experience_and_skills_github (some (c :: cs))
      = extractBody experience_patterns_github skill_keywords_github
          (c :: cs) := rfl

theorem extract_microsoft_cons (c : Char) (cs : List Char) :
    extract_experience_and_skills_microsoft (some (c :: cs))
      = extractBody experience_patterns_microsoft skill_keywords_microsoft
          (c :: cs) := rfl

/-- If pattern 1 has a leftmost match, the whole cascade returns it (both
scripts share pattern 1 as the head of the priority list). -/
theorem runPatterns_of_p1 {d m : List Char}
    (h : firstMatch matchP1At d = some m) :
    runPatterns experience_patterns_github d = m ∧
      runPatterns experience_patterns_microsoft d = m := by
  constructor <;>
    simp [runPatterns, experience_patterns_github,
      experience_patterns_microsoft, h]

/-- If the three numeric patterns have no match anywhere and pattern 4
has a leftmost match, the GitHub cascade returns pattern 4's match. -/
theorem runPatterns_github_of_p4 {d m : List Char}
    (h1 : firstMatch matchP1At d = none)
    (h2 : firstMatch matchP2At d = none)
    (h3 : firstMatch matchP3At d = none)
    (h4 : firstMatch matchP4GithubAt d = some m) :
    runPatterns experience_patterns_github d = m := by
  simp [runPatterns, experience_patterns_github, h1, h2, h3, h4]

/-- A plain-word alternative can only produce its own word. -/
theorem litWordAt_eq {w cs m r : List Char}
    (h : litWordAt w cs = some (m, r)) : m = w := by
  simp only [litWordAt] at h
  split at h
  · exact absurd h (by simp)
  · simp only [Option.some.injEq, Prod.mk.injEq] at h
    exact h.1.symm

/-- The `entry\s*level` alternative only produces `entry`, whitespace,
`level`. -/
theorem matchEntryLevelAt_shape {cs m r : List Char}
    (h : matchEntryLevelAt cs = some (m, r)) :
    ∃ sp, m = "entry".data ++ sp ++ "level".data ∧
      sp.all isSpaceChar = true := by
  simp only [matchEntryLevelAt] at h
  split at h
  · exact absurd h (by simp)
  next r1 h1 =>
    split at h
    · exact absurd h (by simp)
    next r3 h3 =>
      simp only [Option.some.injEq, Prod.mk.injEq] at h
      refine ⟨r1.takeWhile isSpaceChar, ?_, ?_⟩
      · rw [← h.1]
      · rw [List.all_eq_true]
        intro a ha
        exact List.mem_takeWhile_imp ha

/-- Pattern 4 of the GitHub script matches exactly the five seniority
alternatives. -/
theorem matchP4GithubAt_shape {cs m r : List Char}
    (h : matchP4GithubAt cs = some (m, r)) :
    m = "junior".data ∨ m = "senior".data ∨ m = "principal".data ∨
      m = "lead".data ∨
      ∃ sp, m = "entry".data ++ sp ++ "level".data ∧
        sp.all isSpaceChar = true := by
  simp only [matchP4GithubAt] at h
  split at h
  next res hel =>
    simp only [Option.some.injEq] at h
    subst h
    exact Or.inr (Or.inr (Or.inr (Or.inr (matchEntryLevelAt_shape hel))))
  next =>
    split at h
    next res hju =>
      simp only [Option.some.injEq] at h
      subst h
      exact Or.inl (litWordAt_eq hju)
    next =>
      split at h
      next res hse =>
        simp only [Option.some.injEq] at h
        subst h
        exact Or.inr (Or.inl (litWordAt_eq hse))
      next =>
        split at h
        next res hpr =>
          simp only [Option.some.injEq] at h
          subst h
          exact Or.inr (Or.inr (Or.inl (litWordAt_eq hpr)))
        next => exact Or.inr (Or.inr (Or.inr (Or.inl (litWordAt_eq h))))

/-- Pattern 4 of the Microsoft script matches exactly its four seniority
alternatives — `lead` is not among them. -/
theorem matchP4MicrosoftAt_shape {cs m r : List Char}
    (h : matchP4MicrosoftAt cs = some (m, r)) :
    m = "junior".data ∨ m = "senior".data ∨ m = "principal".data ∨
      ∃ sp, m = "entry".data ++ sp ++ "level".data ∧
        sp.all isSpaceChar = true := by
  simp only [matchP4MicrosoftAt] at h
  split at h
  next res hel =>
    simp only [Option.some.injEq] at h
    subst h
    exact Or.inr (Or.inr (Or.inr (matchEntryLevelAt_shape hel)))
  next =>
    split at h
    next res hju =>
      simp only [Option.some.injEq] at h
      subst h
      exact Or.inl (litWordAt_eq hju)
    next =>
      split at h
      next res hse =>
        simp only [Option.some.injEq] at h
        subst h
        exact Or.inr (Or.inl (litWordAt_eq hse))
      next => exact Or.inr (Or.inr (Or.inl (litWordAt_eq h)))

/-- The extractor on any non-empty text is its body. -/
theorem extract_github_of_ne_nil {t : List Char} (h : t ≠ []) :
    extract_experience_and_skills_github (some t)
      = extractBody experience_patterns_github skill_keywords_github t := by
  cases t with
  | nil => exact absurd rfl h
  | cons c cs => rfl

theorem extract_microsoft_of_ne_nil {t : List Char} (h : t ≠ []) :
    extract_experience_and_skills_microsoft (some t)
      = extractBody experience_patterns_microsoft skill_keywords_microsoft
          t := by
  cases t with
  | nil => exact absurd rfl h
  | cons c cs => rfl

/-- The body is insensitive to prior lower-casing of its input, because it
lower-cases the input itself and `lowerList` is idempotent. -/
theorem extractBody_lower
    (p : List (List Char → Option (List Char × List Char)))
    (k : List (List Char)) (jd : List Char) :
    extractBody p k (lowerList jd) = extractBody p k jd := by
  simp only [extractBody]
  rw [lowerList_idem]

/-! ## Claim theorems -/

/-- C1: for every input text, the skills component of both extractors'
results is the comma-join of the program's own found-skills list truncated
to 10 entries, and that entry list has length at most 10. -/
theorem skills_at_most_ten (t : List Char) :
    (extract_experience_and_skills_github (some t)).2
      = joinComma
          ((foundSkills skill_keywords_github (lowerList t)).take 10) ∧
    ((foundSkills skill_keywords_github (lowerList t)).take 10).length
      ≤ 10 ∧
    (extract_experience_and_skills_microsoft (some t)).2
      = joinComma
          ((foundSkills skill_keywords_microsoft (lowerList t)).take 10) ∧
    ((foundSkills skill_keywords_microsoft (lowerList t)).take 10).length
      ≤ 10 := by
  refine ⟨?_, ?_, ?_, ?_⟩
  · cases t with
    | nil => decide
    | cons c cs => rfl
  · rw [List.length_take]
    exact min_le_left _ _
  · cases t with
    | nil => decide
    | cons c cs => rfl
  · rw [List.length_take]
    exact min_le_left _ _

/-- C3: a description of at most 200 characters is its own summary; a
longer one is truncated to its first 200 characters plus the 3-character
ellipsis marker, for a total length of 203. -/
theorem summary_truncation (d : List Char) :
    (d.length ≤ 200 → summarize d = d) ∧
    (200 < d.length →
      summarize d = d.take 200 ++ "...".data ∧
      (summarize d).length = 203) := by
  constructor
  · intro h
    unfold summarize
    rw [if_neg (by omega)]
  · intro h
    have he : summarize d = d.take 200 ++ "...".data := by
      unfold summarize
      rw [if_pos (by omega)]
    refine ⟨he, ?_⟩
    rw [he, List.length_append, List.length_take]
    have : "...".data.length = 3 := rfl
    omega

/-- Witness for C3 at the empty description and at a 201-character one. -/
theorem summary_truncation_witness :
    summarize [] = [] ∧
    (summarize (List.replicate 201 'a')).length = 203 :=
  ⟨(summary_truncation []).1 (by simp),
   ((summary_truncation (List.replicate 201 'a')).2
     (by rw [List.length_replicate]; omega)).2⟩

/-- C4: both extractors are total Lean functions (the model of "never
raises"); `None` and the empty string yield the empty pair, and every
input yields a well-formed (experience, skills) pair. -/
theorem extractor_total_never_raises :
    extract_experience_and_skills_github none = ([], []) ∧
    extract_experience_and_skills_github (some []) = ([], []) ∧
    extract_experience_and_skills_microsoft none = ([], []) ∧
    extract_experience_and_skills_microsoft (some []) = ([], []) ∧
    (∀ t : List Char, ∃ e s : List Char,
      extract_experience_and_skills_github (some t) = (e, s) ∧
      ∃ e2 s2 : List Char,
        extract_experience_and_skills_microsoft (some t) = (e2, s2)) :=
  ⟨rfl, rfl, rfl, rfl, fun _ => ⟨_, _, rfl, _, _, rfl⟩⟩

/-- C8: when the fetch fails (`none`), `get_job_detail` returns the record
whose every detail field is empty rather than raising; moreover the salary
field is empty on every path. -/
theorem job_detail_failure_all_empty :
    (get_job_detail_github none).description = [] ∧
    (get_job_detail_github none).experience = [] ∧
    (get_job_detail_github none).skills = [] ∧
    (get_job_detail_github none).summary = [] ∧
    (get_job_detail_github none).salary = [] ∧
    (get_job_detail_microsoft none).description = [] ∧
    (get_job_detail_microsoft none).experience = [] ∧
    (get_job_detail_microsoft none).skills = [] ∧
    (get_job_detail_microsoft none).summary = [] ∧
    (get_job_detail_microsoft none).salary = [] ∧
    (∀ o : Option (List Char),
      (get_job_detail_github o).salary = [] ∧
      (get_job_detail_microsoft o).salary = []) := by
  refine ⟨rfl, rfl, rfl, rfl, rfl, rfl, rfl, rfl, rfl, rfl, ?_⟩
  intro o
  cases o <;> exact ⟨rfl, rfl⟩

/-- C10: skill detection is raw substring membership, not whole-word
matching: the text `"javascript"` yields the entry `java` (which occurs
only inside the longer word), and `"maintain"` yields `ai`. -/
theorem substring_skill_matching :
    (extract_experience_and_skills_github
        (some "javascript".data)).2 = "java, javascript".data ∧
    containsSub "java".data "javascript".data = true ∧
    (extract_experience_and_skills_github
        (some "maintain".data)).2 = "ai".data ∧
    (extract_experience_and_skills_microsoft
        (some "maintain".data)).2 = "ai".data := by
  refine ⟨?_, ?_, ?_, ?_⟩ <;> decide

/-- C5: the found-skill list is a sublist of the fixed vocabulary (hence
in declaration order), the extractor's skills output is the comma-join of
its first 10 entries, and when no vocabulary entry occurs in the lowered
text the output is the empty string. -/
theorem skills_vocabulary_order (t : List Char) :
    List.Sublist (foundSkills skill_keywords_github (lowerList t))
      skill_keywords_github ∧
    (extract_experience_and_skills_github (some t)).2
      = joinComma
          ((foundSkills skill_keywords_github (lowerList t)).take 10) ∧
    List.Sublist (foundSkills skill_keywords_microsoft (lowerList t))
      skill_keywords_microsoft ∧
    (extract_experience_and_skills_microsoft (some t)).2
      = joinComma
          ((foundSkills skill_keywords_microsoft (lowerList t)).take 10) ∧
    ((∀ k ∈ skill_keywords_github,
        containsSub (lowerList k) (lowerList t) = false) →
      (extract_experience_and_skills_github (some t)).2 = []) ∧
    ((∀ k ∈ skill_keywords_microsoft,
        containsSub (lowerList k) (lowerList t) = false) →
      (extract_experience_and_skills_microsoft (some t)).2 = []) := by
  have hsub : ∀ kw : List (List Char),
      List.Sublist (foundSkills kw (lowerList t)) kw := by
    intro kw
    rw [foundSkills_eq_filter]
    exact List.filter_sublist _
  have hempty : ∀ kw : List (List Char),
      (∀ k ∈ kw, containsSub (lowerList k) (lowerList t) = false) →
      foundSkills kw (lowerList t) = [] := by
    intro kw h
    rw [foundSkills_eq_filter]
    exact List.filter_eq_nil_iff.mpr fun a ha => by simp [h a ha]
  refine ⟨hsub _, ?_, hsub _, ?_, ?_, ?_⟩
  · cases t with
    | nil => decide
    | cons c cs => rfl
  · cases t with
    | nil => decide
    | cons c cs => rfl
  · intro h
    cases t with
    | nil => rfl
    | cons c cs =>
      rw [extract_github_cons]
      show joinComma
        ((foundSkills skill_keywords_github (lowerList (c :: cs))).take 10)
          = []
      rw [hempty _ h]
      rfl
  · intro h
    cases t with
    | nil => rfl
    | cons c cs =>
      rw [extract_microsoft_cons]
      show joinComma
        ((foundSkills skill_keywords_microsoft
          (lowerList (c :: cs))).take 10) = []
      rw [hempty _ h]
      rfl

/-- Witness for C5: a text matching no vocabulary entry yields the empty
skills string in both scripts. -/
theorem skills_vocabulary_order_witness :
    (extract_experience_and_skills_github (some "zzz".data)).2 = [] ∧
    (extract_experience_and_skills_microsoft (some "zzz".data)).2 = [] :=
  ⟨(skills_vocabulary_order "zzz".data).2.2.2.2.1 (by decide),
   (skills_vocabulary_order "zzz".data).2.2.2.2.2 (by decide)⟩

/-- C6: skill matching is case-insensitive — running either extractor on
the lower-cased text gives the very same result as on the original text,
so a vocabulary entry is reported for a text exactly when it is reported
for its lower-casing; in particular `"PYTHON"` triggers the `python`
entry. -/
theorem skill_matching_case_insensitive (t : List Char) :
    extract_experience_and_skills_github (some (lowerList t))
      = extract_experience_and_skills_github (some t) ∧
    extract_experience_and_skills_microsoft (some (lowerList t))
      = extract_experience_and_skills_microsoft (some t) ∧
    (∀ k, k ∈ foundSkills skill_keywords_github (lowerList (lowerList t))
        ↔ k ∈ foundSkills skill_keywords_github (lowerList t)) ∧
    (extract_experience_and_skills_github
      (some "PYTHON".data)).2 = "python".data := by
  refine ⟨?_, ?_, ?_, by decide⟩
  · cases t with
    | nil => rfl
    | cons c cs =>
      show extractBody experience_patterns_github skill_keywords_github
          (lowerList (c :: cs))
        = extractBody experience_patterns_github skill_keywords_github
          (c :: cs)
      exact extractBody_lower _ _ _
  · cases t with
    | nil => rfl
    | cons c cs =>
      show extractBody experience_patterns_microsoft
          skill_keywords_microsoft (lowerList (c :: cs))
        = extractBody experience_patterns_microsoft
          skill_keywords_microsoft (c :: cs)
      exact extractBody_lower _ _ _
  · intro k
    rw [lowerList_idem]

/-- C9: the tabular writer is a no-op on an empty record list; on a
non-empty list it writes exactly the fixed 7-column schema in order, one
row per record, and any column a record lacks is filled with the empty
string. -/
theorem save_to_excel_schema :
    save_to_excel [] = none ∧
    (∀ js : List JobRow, js ≠ [] →
      save_to_excel js = some (required_columns, js.map rowOf)) ∧
    required_columns = ["JobTitle", "Location", "ExperienceRequired",
      "SkillsRequired", "Salary", "JobURL", "JobDescriptionSummary"] ∧
    (∀ j : JobRow, (rowOf j).length = 7) ∧
    (∀ (j : JobRow) (i : Nat) (c : String),
      required_columns[i]? = some c → List.lookup c j = none →
      (rowOf j)[i]? = some "") := by
  refine ⟨rfl, ?_, rfl, ?_, ?_⟩
  · intro js h
    rw [save_to_excel, if_neg (by simp [List.isEmpty_iff, h])]
  · intro j
    rw [rowOf, List.length_map]
    rfl
  · intro j i c hc hl
    rw [rowOf, List.getElem?_map, hc]
    simp [hl]

/-- Witness for C9: one record carrying only a `Location` field is written
as one row under the 7-column schema with the other cells empty. -/
theorem save_to_excel_schema_witness :
    save_to_excel [[("Location", "NY")]]
      = some (required_columns, [["", "NY", "", "", "", "", ""]]) ∧
    (rowOf ([] : JobRow))[0]? = some "" := by
  constructor
  · rw [save_to_excel_schema.2.1 [[("Location", "NY")]] (by simp)]
    rfl
  · exact save_to_excel_schema.2.2.2.2 [] 0 "JobTitle" rfl rfl

/-- Counterexample to C2 as stated: a text that contains
`"5+ years of experience"` but whose leftmost pattern-1 match is an
earlier `"2 years of experience"`, so the experience output does not
contain `"5+ years of experience"`. -/
theorem experience_five_plus_counterexample :
    containsSub "5+ years of experience".data
        "2 years of experience and 5+ years of experience".data = true ∧
    (extract_experience_and_skills_github
        (some "2 years of experience and 5+ years of experience".data)).1
      = "2 years of experience".data ∧
    containsSub "5+ years of experience".data
        (extract_experience_and_skills_github
          (some "2 years of experience and 5+ years of experience".data)).1
      = false := by
  refine ⟨by decide, by decide, by decide⟩

/-- C2 (amended): for every input text containing
`"5+ years of experience"`, pattern 1 has a leftmost match and both
extractors return exactly that match as the experience — a non-empty
pattern-1 phrase — so the later patterns of the priority list are ignored
(it need not be the `"5+ ..."` occurrence itself when an earlier
pattern-1 match exists). -/
theorem experience_first_pattern_wins (t : List Char)
    (h : containsSub "5+ years of experience".data t = true) :
    ∃ m, m ≠ [] ∧ firstMatch matchP1At (lowerList t) = some m ∧
      (extract_experience_and_skills_github (some t)).1 = m ∧
      (extract_experience_and_skills_microsoft (some t)).1 = m := by
  obtain ⟨a, b, rfl⟩ := (containsSub_iff _ t).mp h
  have hlow : lowerList (a ++ "5+ years of experience".data ++ b)
      = lowerList a ++ ("5+ years of experience".data ++ lowerList b) := by
    rw [lowerList_append, lowerList_append, List.append_assoc]
    rw [show lowerList "5+ years of experience".data
          = "5+ years of experience".data from by decide]
  obtain ⟨y, hy⟩ := firstMatch_isSome_append matchP1At (lowerList a) _ _ _
    (matchP1At_occ (lowerList b))
  rw [← hlow] at hy
  obtain ⟨s, r, hs⟩ := firstMatch_eq_some matchP1At hy
  have hne := matchP1At_ne_nil hs
  have hnil : a ++ "5+ years of experience".data ++ b ≠ [] := by
    intro hc
    simp only [List.append_eq_nil] at hc
    exact absurd hc.1.2 (by decide)
  have hrun := runPatterns_of_p1 hy
  refine ⟨y, hne, hy, ?_, ?_⟩
  · rw [extract_github_of_ne_nil hnil]
    exact hrun.1
  · rw [extract_microsoft_of_ne_nil hnil]
    exact hrun.2

/-- Witness for C2 (amended) at a concrete text. -/
theorem experience_first_pattern_wins_witness :
    ∃ m, m ≠ [] ∧
      firstMatch matchP1At
        (lowerList "needs 5+ years of experience".data) = some m ∧
      (extract_experience_and_skills_github
        (some "needs 5+ years of experience".data)).1 = m ∧
      (extract_experience_and_skills_microsoft
        (some "needs 5+ years of experience".data)).1 = m :=
  experience_first_pattern_wins "needs 5+ years of experience".data
    (by decide)

/-- Counterexample to C7 as stated: the Microsoft script's fourth pattern
omits `lead`, so the text `"lead"` — which matches none of the three
numeric patterns and contains the word `lead` — yields the empty
experience, not `"lead"`. -/
theorem seniority_lead_counterexample :
    firstMatch matchP1At "lead".data = none ∧
    firstMatch matchP2At "lead".data = none ∧
    firstMatch matchP3At "lead".data = none ∧
    containsSub "lead".data "lead".data = true ∧
    (extract_experience_and_skills_microsoft (some "lead".data)).1 = [] ∧
    (extract_experience_and_skills_microsoft (some "lead".data)).1
      ≠ "lead".data := by
  refine ⟨by decide, by decide, by decide, by decide, by decide, by decide⟩

/-- C7 (amended): the GitHub script's fourth pattern matches exactly the
five seniority alternatives (`entry\s*level`, `junior`, `senior`,
`principal`, `lead`), and when no numeric pattern matches anywhere and the
leftmost seniority match is `lead` the GitHub experience output is
`"lead"`; the Microsoft script's fourth pattern omits `lead` and can never
produce it. -/
theorem seniority_fourth_pattern :
    (∀ cs m r : List Char, matchP4GithubAt cs = some (m, r) →
      m = "junior".data ∨ m = "senior".data ∨ m = "principal".data ∨
        m = "lead".data ∨
        ∃ sp, m = "entry".data ++ sp ++ "level".data ∧
          sp.all isSpaceChar = true) ∧
    (∀ t : List Char,
      firstMatch matchP1At (lowerList t) = none →
      firstMatch matchP2At (lowerList t) = none →
      firstMatch matchP3At (lowerList t) = none →
      firstMatch matchP4GithubAt (lowerList t) = some "lead".data →
      (extract_experience_and_skills_github (some t)).1 = "lead".data) ∧
    (∀ cs m r : List Char, matchP4MicrosoftAt cs = some (m, r) →
      m ≠ "lead".data) := by
  refine ⟨fun cs m r hm => matchP4GithubAt_shape hm, ?_, ?_⟩
  · intro t h1 h2 h3 h4
    have hnil : t ≠ [] := by
      intro hc
      subst hc
      exact absurd h4 (by decide)
    rw [extract_github_of_ne_nil hnil]
    exact runPatterns_github_of_p4 h1 h2 h3 h4
  · intro cs m r hm
    rcases matchP4MicrosoftAt_shape hm with h' | h' | h' | ⟨sp, hsp, -⟩
    · rw [h']; decide
    · rw [h']; decide
    · rw [h']; decide
    · intro hc
      rw [hsp] at hc
      have := congrArg List.head? hc
      simp at this

/-- Witness for C7 (amended): `"team lead"` yields `"lead"` in the GitHub
script, and the Microsoft fourth pattern's `junior` match is not
`"lead"`. -/
theorem seniority_fourth_pattern_witness :
    (extract_experience_and_skills_github (some "team lead".data)).1
      = "lead".data ∧
    "junior".data ≠ "lead".data :=
  ⟨seniority_fourth_pattern.2.1 "team lead".data
      (by decide) (by decide) (by decide) (by decide),
   seniority_fourth_pattern.2.2 "junior".data "junior".data []
      (by decide)⟩
